import Mathlib

/-!
Verification of the niri window-management scripts (dynamic-float, niri_helpers,
general_helpers, window_glancer, launch_music) against their specification.

The Python `json` standard library is modelled explicitly: `JVal` is the space
of JSON-representable values handled by the scripts (the persisted state
records and the wire payloads contain only null, booleans, integers, strings,
arrays and objects; floating-point literals do not occur in them and are left
out of the model).  `dumpIndent` mirrors `json.dump(state, f, indent=2)`,
`dumpsSep` mirrors `json.dumps` with its default separators, and `jsonLoads`
mirrors `json.loads` (whitespace-tolerant, strict about control characters,
`ensure_ascii` escapes undone including surrogate pairs).
-/

/-- A JSON value as produced/consumed by the scripts' `json.dump`/`json.load`
calls.  Objects keep insertion order, matching Python dicts. -/
inductive JVal where
  | null
  | bool (b : Bool)
  | int (n : Int)
  | str (s : String)
  | arr (elems : List JVal)
  | obj (fields : List (String × JVal))

/-- Characters that Python's `json.loads` treats as skippable whitespace. -/
def isWsChar (c : Char) : Bool := c == ' ' || c == '\n' || c == '\r' || c == '\t'

/-- Drop leading JSON whitespace. -/
def skipWs : List Char → List Char
  | [] => []
  | c :: cs => if isWsChar c then skipWs cs else c :: cs

/-- Decimal digit test, as in the JSON grammar. -/
def isDigitChar (c : Char) : Bool := '0' ≤ c && c ≤ '9'

/-- The hexadecimal digit character Python emits for a nibble (lowercase, as in
`'\\u{0:04x}'.format`). -/
def hexNib (n : Nat) : Char :=
  if n < 10 then Char.ofNat (48 + n) else Char.ofNat (87 + n)

/-- The four hex digits of `n < 0x10000`, as emitted for a `\uXXXX` escape. -/
def hex4 (n : Nat) : List Char :=
  [hexNib (n / 4096 % 16), hexNib (n / 256 % 16), hexNib (n / 16 % 16), hexNib (n % 16)]

/-- Escape one character the way CPython's `json.encoder` does with
`ensure_ascii=True`: the seven short escapes, printable ASCII verbatim, and
everything else as `\uXXXX` (astral characters as a surrogate pair). -/
def escChar (c : Char) : List Char :=
  if c = '"' then ['\\', '"']
  else if c = '\\' then ['\\', '\\']
  else if c = '\n' then ['\\', 'n']
  else if c = '\r' then ['\\', 'r']
  else if c = '\t' then ['\\', 't']
  else if c.toNat = 8 then ['\\', 'b']
  else if c.toNat = 12 then ['\\', 'f']
  else if 32 ≤ c.toNat && c.toNat ≤ 126 then [c]
  else if c.toNat < 65536 then '\\' :: 'u' :: hex4 c.toNat
  else
    '\\' :: 'u' :: hex4 (55296 + (c.toNat - 65536) / 1024)
      ++ ('\\' :: 'u' :: hex4 (56320 + (c.toNat - 65536) % 1024))

/-- Escape a whole string body (no surrounding quotes). -/
def escStr : List Char → List Char
  | [] => []
  | c :: cs => escChar c ++ escStr cs

/-- A quoted, escaped JSON string literal. -/
def quoteStr (s : String) : List Char := '"' :: (escStr s.data ++ ['"'])

/-- Decimal digits of `n`, most significant first, prepended to `acc` (the same
characters `repr(n)` produces for a nonnegative int). -/
def natDigs (n : Nat) (acc : List Char) : List Char :=
  if n < 10 then Char.ofNat (48 + n % 10) :: acc
  else natDigs (n / 10) (Char.ofNat (48 + n % 10) :: acc)
termination_by n
decreasing_by omega

/-- The characters of `repr(i)` for a Python int. -/
def intDigs (i : Int) : List Char :=
  (if i < 0 then ['-'] else []) ++ natDigs i.natAbs []

/-- Newline plus `k` spaces: what `json.dump` inserts before an element when an
`indent` is given. -/
def nlInd (k : Nat) : List Char := '\n' :: List.replicate k ' '

mutual
/-- Render a value as `json.dump(v, f, indent=2)` does, `ind` being the current
indent width (item separator `","`, key separator `": "`). -/
def dumpIndent (ind : Nat) : JVal → List Char
  | .null => 'n' :: 'u' :: 'l' :: 'l' :: []
  | .bool true => 't' :: 'r' :: 'u' :: 'e' :: []
  | .bool false => 'f' :: 'a' :: 'l' :: 's' :: 'e' :: []
  | .int i => intDigs i
  | .str s => quoteStr s
  | .arr [] => '[' :: ']' :: []
  | .arr (v :: vs) =>
      '[' :: (nlInd (ind + 2) ++ (dumpIndent (ind + 2) v
        ++ (dumpItemsInd (ind + 2) vs ++ (nlInd ind ++ [']']))))
  | .obj [] => '{' :: '}' :: []
  | .obj (f :: fs) =>
      '{' :: (nlInd (ind + 2) ++ (dumpFieldInd (ind + 2) f
        ++ (dumpFieldsInd (ind + 2) fs ++ (nlInd ind ++ ['}']))))
/-- The remaining array items, each preceded by `",\n" + indent`. -/
def dumpItemsInd (ind : Nat) : List JVal → List Char
  | [] => []
  | v :: vs => ',' :: (nlInd ind ++ (dumpIndent ind v ++ dumpItemsInd ind vs))
/-- One object member: quoted key, `": "`, value. -/
def dumpFieldInd (ind : Nat) : String × JVal → List Char
  | (k, v) => quoteStr k ++ (':' :: ' ' :: dumpIndent ind v)
/-- The remaining object members, each preceded by `",\n" + indent`. -/
def dumpFieldsInd (ind : Nat) : List (String × JVal) → List Char
  | [] => []
  | f :: fs => ',' :: (nlInd ind ++ (dumpFieldInd ind f ++ dumpFieldsInd ind fs))
end

mutual
/-- Render a value as plain `json.dumps(v)` does (default separators `", "`
and `": "`, no newlines). -/
def dumpsSep : JVal → List Char
  | .null => 'n' :: 'u' :: 'l' :: 'l' :: []
  | .bool true => 't' :: 'r' :: 'u' :: 'e' :: []
  | .bool false => 'f' :: 'a' :: 'l' :: 's' :: 'e' :: []
  | .int i => intDigs i
  | .str s => quoteStr s
  | .arr [] => '[' :: ']' :: []
  | .arr (v :: vs) => '[' :: (dumpsSep v ++ (dumpsItems vs ++ [']']))
  | .obj [] => '{' :: '}' :: []
  | .obj (f :: fs) => '{' :: (dumpsField f ++ (dumpsFields fs ++ ['}']))
/-- Remaining array items under default separators. -/
def dumpsItems : List JVal → List Char
  | [] => []
  | v :: vs => ',' :: ' ' :: (dumpsSep v ++ dumpsItems vs)
/-- One member under default separators. -/
def dumpsField : String × JVal → List Char
  | (k, v) => quoteStr k ++ (':' :: ' ' :: dumpsSep v)
/-- Remaining members under default separators. -/
def dumpsFields : List (String × JVal) → List Char
  | [] => []
  | f :: fs => ',' :: ' ' :: (dumpsField f ++ dumpsFields fs)
end

/-- Numeric value of a hex digit character, if it is one. -/
def hexDigVal (c : Char) : Option Nat :=
  if 48 ≤ c.toNat ∧ c.toNat ≤ 57 then some (c.toNat - 48)
  else if 97 ≤ c.toNat ∧ c.toNat ≤ 102 then some (c.toNat - 87)
  else if 65 ≤ c.toNat ∧ c.toNat ≤ 70 then some (c.toNat - 55)
  else none

/-- Combine four hex digit characters into their value. -/
def hex4Val (a b c d : Char) : Option Nat := do
  let x ← hexDigVal a
  let y ← hexDigVal b
  let z ← hexDigVal c
  let w ← hexDigVal d
  return ((x * 16 + y) * 16 + z) * 16 + w

/-- The single-character JSON escapes accepted after a backslash. -/
def escCode : Char → Option Char
  | 'b' => some (Char.ofNat 8)
  | 'f' => some (Char.ofNat 12)
  | 'n' => some '\n'
  | 'r' => some '\r'
  | 't' => some '\t'
  | '/' => some '/'
  | '"' => some '"'
  | '\\' => some '\\'
  | _ => none

/-- Decode the four-hex-digit escape payload after a `\\u`, consuming a
following low-surrogate escape when the first value is a high surrogate
(CPython joins the pair into one code point). -/
def unescU : List Char → Option (Char × List Char)
  | a :: b :: c :: d :: rest =>
      match hex4Val a b c d with
      | none => none
      | some n =>
        if 55296 ≤ n && n < 56320 then
          match rest with
          | x1 :: x2 :: a2 :: b2 :: c2 :: d2 :: rest2 =>
              if x1 = '\\' && x2 = 'u' then
                match hex4Val a2 b2 c2 d2 with
                | none => none
                | some m =>
                  if 56320 ≤ m && m < 57344 then
                    some (Char.ofNat (65536 + (n - 55296) * 1024 + (m - 56320)), rest2)
                  else none
              else none
          | _ => none
        else if 56320 ≤ n && n < 57344 then none
        else some (Char.ofNat n, rest)
  | _ => none

/-- Decode one escape sequence after its backslash. -/
def unescapeHead : List Char → Option (Char × List Char)
  | [] => none
  | e :: rest => if e = 'u' then unescU rest else (escCode e).map (fun c => (c, rest))

/-- Parse a string body after the opening quote, accumulating in reverse.
Mirrors `json.decoder.py_scanstring` in strict mode (raw control characters
rejected), except that a lone surrogate escape is rejected rather than kept,
since a Lean `Char` cannot hold one; the encoder never emits a lone one.  The
fuel argument only bounds the recursion; callers pass more than the input
length, which one consumed character per step can never exhaust. -/
def scanStr : Nat → List Char → List Char → Option (List Char × List Char)
  | 0, _, _ => none
  | _ + 1, _, [] => none
  | fuel + 1, acc, c :: rest =>
    if c = '"' then some (acc.reverse, rest)
    else if c = '\\' then
      match unescapeHead rest with
      | some (ch, rest2) => scanStr fuel (ch :: acc) rest2
      | none => none
    else if c.toNat < 32 then none
    else scanStr fuel (c :: acc) rest

/-- Split a leading run of decimal digits from the input. -/
def takeDigs : List Char → List Char × List Char
  | [] => ([], [])
  | c :: cs =>
      if isDigitChar c then
        let (ds, r) := takeDigs cs
        (c :: ds, r)
      else ([], c :: cs)

/-- The natural number a digit run denotes. -/
def digsVal (ds : List Char) : Nat :=
  ds.foldl (fun acc c => acc * 10 + (c.toNat - 48)) 0

/-- True when the remainder starts with a fraction or exponent marker, which
would make the preceding digits a float literal. -/
def floatFollows : List Char → Bool
  | [] => false
  | c :: _ => c == '.' || c == 'e' || c == 'E'

/-- Parse an integer literal.  A following `.`, `e` or `E` would make the token
a float, which is outside the modelled value space, so the parse fails there
instead of producing a wrong value (the scripts' state and payloads hold no
floats; leading-zero rejection is also elided since nothing emits one). -/
def scanInt : List Char → Option (Int × List Char)
  | [] => none
  | c :: cs0 =>
    if c = '-' then
      let (ds, r) := takeDigs cs0
      if ds.isEmpty || floatFollows r then none else some (-(digsVal ds : Int), r)
    else
      let (ds, r) := takeDigs (c :: cs0)
      if ds.isEmpty || floatFollows r then none else some ((digsVal ds : Int), r)

mutual
/-- Fueled recursive-descent JSON value parser (fuel only bounds recursion; the
top-level wrapper supplies more fuel than any input can need). -/
def scanVal (fuel : Nat) (cs : List Char) : Option (JVal × List Char) :=
  match fuel with
  | 0 => none
  | fuel + 1 =>
    match skipWs cs with
    | 'n' :: 'u' :: 'l' :: 'l' :: r => some (.null, r)
    | 't' :: 'r' :: 'u' :: 'e' :: r => some (.bool true, r)
    | 'f' :: 'a' :: 'l' :: 's' :: 'e' :: r => some (.bool false, r)
    | '"' :: r =>
        match scanStr (r.length + 1) [] r with
        | some (s, r1) => some (.str (String.mk s), r1)
        | none => none
    | '[' :: r =>
        if (skipWs r).head? = some ']' then some (.arr [], (skipWs r).tail)
        else
          match scanItems fuel (skipWs r) with
          | some (vs, r2) => some (.arr vs, r2)
          | none => none
    | '{' :: r =>
        if (skipWs r).head? = some '}' then some (.obj [], (skipWs r).tail)
        else
          match scanFields fuel (skipWs r) with
          | some (fs, r2) => some (.obj fs, r2)
          | none => none
    | c :: rest =>
        if c == '-' || isDigitChar c then
          match scanInt (c :: rest) with
          | some (i, r1) => some (.int i, r1)
          | none => none
        else none
    | [] => none
/-- One or more comma-separated array items, up to and including `]`. -/
def scanItems (fuel : Nat) (cs : List Char) : Option (List JVal × List Char) :=
  match fuel with
  | 0 => none
  | fuel + 1 =>
    match scanVal fuel cs with
    | none => none
    | some (v, r) =>
        match skipWs r with
        | ',' :: r1 =>
            match scanItems fuel (skipWs r1) with
            | some (vs, r2) => some (v :: vs, r2)
            | none => none
        | ']' :: r1 => some ([v], r1)
        | _ => none
/-- One or more comma-separated object members, up to and including `}`. -/
def scanFields (fuel : Nat) (cs : List Char) : Option (List (String × JVal) × List Char) :=
  match fuel with
  | 0 => none
  | fuel + 1 =>
    match skipWs cs with
    | '"' :: r =>
        match scanStr (r.length + 1) [] r with
        | none => none
        | some (k, r1) =>
            match skipWs r1 with
            | ':' :: r2 =>
                match scanVal fuel (skipWs r2) with
                | none => none
                | some (v, r3) =>
                    match skipWs r3 with
                    | ',' :: r4 =>
                        match scanFields fuel (skipWs r4) with
                        | some (fs, r5) => some ((String.mk k, v) :: fs, r5)
                        | none => none
                    | '}' :: r4 => some ([(String.mk k, v)], r4)
                    | _ => none
            | _ => none
    | _ => none
end

/-- The model of `json.loads`: parse one value, then require only whitespace to
remain (Python raises `Extra data` otherwise, which the callers catch the same
way as any other decode error). -/
def jsonLoads (s : String) : Option JVal :=
  match scanVal (s.data.length + 1) s.data with
  | none => none
  | some (v, r) =>
      match skipWs r with
      | [] => some v
      | _ => none

/-! ### niri actions

The closed set of `{"Action": ...}` payload shapes the scripts construct.
Each constructor's argument types follow its call sites: identifiers read
from decoded niri responses are `Int` (niri window/workspace ids are
integers), while values that flow straight out of the persisted state file
are raw `JVal`, exactly as Python passes them through. -/

inductive SizeChange where
  | setFixed (v : Int)
  | setProportion (p : ℚ)

inductive PosChange where
  | setProportion (p : ℚ)
  | adjustFixed (v : ℚ)

inductive NiriAction where
  | moveWindowToFloating (id : Int)
  | setWindowHeight (id : Int) (change : SizeChange)
  | setWindowWidth (id : Int) (change : SizeChange)
  | moveFloatingWindow (id : Int) (x y : PosChange)
  | focusWindow (id : JVal)
  | focusWorkspace (name : String)
  | consumeWindowIntoColumn
  | moveColumnToFirst
  | toggleWindowRuleOpacity
  | unsetWorkspaceName (name : String)
  | setColumnWidth (fixed : JVal)
  | moveColumnToWorkspaceUp (focus : Bool)
  | moveColumnToWorkspace (name : String) (focus : Bool)
  | moveColumnToIndex (index : JVal)
  | setWorkspaceName (name : String) (index : Int)
  | focusMonitor (output : String)

/-! ### Python dict primitives (insertion-ordered, unique keys) -/

/-- Lookup, as in `d[k]` / `d.get(k)`. -/
def pyDictGet {α β : Type} [BEq α] (d : List (α × β)) (k : α) : Option β :=
  (d.find? (fun p => p.1 == k)).map (fun p => p.2)

/-- Assignment `d[k] = v`: replace in place, else append (Python dicts keep
insertion order and keep a replaced key's original position). -/
def pyDictSet {α β : Type} [BEq α] (d : List (α × β)) (k : α) (v : β) : List (α × β) :=
  if d.any (fun p => p.1 == k) then d.map (fun p => if p.1 == k then (k, v) else p)
  else d ++ [(k, v)]

/-- Deletion `del d[k]` once the key is known present. -/
def pyDictDel {α β : Type} [BEq α] (d : List (α × β)) (k : α) : List (α × β) :=
  d.filter (fun p => !(p.1 == k))

/-- Membership `k in d`. -/
def pyDictHas {α β : Type} [BEq α] (d : List (α × β)) (k : α) : Bool :=
  d.any (fun p => p.1 == k)

/-- Python truthiness of a decoded JSON value (`if changed := event.get(...)`). -/
def pyTruthy (v : JVal) : Bool :=
  match v with
  | .null => false
  | .bool b => b
  | .int n => n != 0
  | .str s => s.length != 0
  | .arr l => l.length != 0
  | .obj l => l.length != 0

/-- Truthiness of a `.get` result (`None` for a missing key is falsy). -/
def optTruthy (v : Option JVal) : Bool :=
  match v with
  | none => false
  | some v => pyTruthy v

/-- The exceptions the scripts can raise or catch. -/
inductive PyErr where
  | keyError
  | typeError
  | indexError
  | valueError
  | attributeError
  | jsonDecodeError
deriving DecidableEq

/-! ### niri_helpers.py - `NiriIPC.send_action`

`send_request` is modelled at its callers as an `Option` result: `none` is
the documented "None on error" sentinel it returns after logging an
`OSError`/`json.JSONDecodeError`/`KeyError` or an `Err` envelope. -/

/-- Python `s.replace(old, new)`: leftmost non-overlapping occurrences, fueled
by the input length (one consumed character per step, so the fuel never runs
out at that bound).  The scripts only call it with nonempty `old`; an empty
`old` is treated as matching nowhere. -/
def pyReplaceGo : Nat → List Char → List Char → List Char → List Char
  | 0, s, _, _ => s
  | _ + 1, [], _, _ => []
  | fuel + 1, c :: cs, old, new =>
      if !old.isEmpty && old.isPrefixOf (c :: cs) then
        new ++ pyReplaceGo fuel ((c :: cs).drop old.length) old new
      else c :: pyReplaceGo fuel cs old new

def pyReplace (s old new : List Char) : List Char := pyReplaceGo s.length s old new

/-- Model of `NiriIPC.send_action(action)` (the definition is byte-identical
in src/modules/niri/niri_helpers.py and src/niri/niri_helpers.py): validate
the action dict, serialize `{"Action": action}` with `json.dumps`, rewrite
`': True'`/`': False'` to lowercase, and send the result plus a newline.
The returned value is the line written to the socket; the empty dict raises
`ValueError` before any I/O.  Transport errors after the write are logged
and swallowed, leaving the sent bytes as modelled. -/
def send_action (action : List (String × JVal)) : Except Unit (List Char) :=
  if action.isEmpty then .error ()
  else
    .ok (pyReplace (pyReplace (dumpsSep (.obj [("Action", .obj action)]))
          ": True".data ": true".data) ": False".data ": false".data ++ ['\n'])

/-! ### niri/dynamic-float.py

`re.search(pattern, s)` is abstracted as an oracle `rs : String → String →
Bool` (pattern first); none of the properties below depend on the regex
semantics themselves. -/

/-- One `[[rules]]` match predicate (dataclass `Match`). -/
structure Match where
  title : Option String := none
  app_id : Option String := none
deriving DecidableEq

/-- A window snapshot as the script reads it: the fields `update_matched` and
the rules touch, plus the script-added `matched` flag (absent on the wire,
hence `false` on decode). -/
structure Window where
  id : Int
  title : String
  app_id : String
  matched : Bool := false
deriving DecidableEq

/-- `Match.matches(window)`: no predicate at all is vacuously false; present
predicates are AND-combined. -/
def Match.matches (rs : String → String → Bool) (m : Match) (w : Window) : Bool :=
  if m.title = none ∧ m.app_id = none then false
  else
    (match m.title with
     | some pat => rs pat w.title
     | none => true)
    && (match m.app_id with
        | some pat => rs pat w.app_id
        | none => true)

/-- The dataclass `Rule`: match list, exclude list, layout directives. -/
structure Rule where
  «match» : List Match := []
  exclude : List Match := []
  width : Int := 0
  height : Int := 0
  centered : Bool := false

/-- `Rule.matches(window)`: reject when a nonempty match list has no hit, then
let any exclude hit veto; otherwise accept. -/
def Rule.matches (rs : String → String → Bool) (r : Rule) (w : Window) : Bool :=
  if 0 < r.«match».length ∧ ¬r.«match».any (fun m => m.matches rs w) then false
  else if r.exclude.any (fun m => m.matches rs w) then false
  else true

/-- The in-memory window registry `windows` (a Python dict keyed by id). -/
abbrev Registry := List (Int × Window)

/-- `float_window(window_id)`. -/
def float_window (window_id : Int) : List NiriAction :=
  [.moveWindowToFloating window_id]

/-- `set_height(window_id, height)`. -/
def set_height (window_id height : Int) : List NiriAction :=
  [.setWindowHeight window_id (.setFixed height)]

/-- `set_width(window_id, width)`. -/
def set_width (window_id width : Int) : List NiriAction :=
  [.setWindowWidth window_id (.setFixed width)]

/-- `set_centered(window_id, width, height)`: move to 50%/50% by proportion,
then adjust by `-(width / 2)` and `height / 4` pixels (Python `/` is exact
here; the quotients are modelled as rationals). -/
def set_centered (window_id : Int) (width height : Int) : List NiriAction :=
  [.moveFloatingWindow window_id (.setProportion 50) (.setProportion 50),
   .moveFloatingWindow window_id (.adjustFixed (-((width : ℚ) / 2)))
     (.adjustFixed ((height : ℚ) / 4))]

/-- `update_matched(window)`: recover the previous matched flag from the
registry, find the first matching rule, and on a false-to-true transition
emit float/size/center actions.  Returns the updated window snapshot and the
actions sent. -/
def update_matched (rs : String → String → Bool) (rules : List Rule)
    (windows : Registry) (w : Window) : Window × List NiriAction :=
  let w0 : Window := { w with matched := false }
  let w1 : Window :=
    match pyDictGet windows w0.id with
    | some existing => { w0 with matched := existing.matched }
    | none => w0
  let matchedBefore := w1.matched
  match rules.find? (fun r => r.matches rs w1) with
  | some r =>
      let w2 : Window := { w1 with matched := true }
      if matchedBefore then (w2, [])
      else
        (w2, float_window w2.id
          ++ (if r.height != 0 then set_height w2.id r.height else [])
          ++ (if r.width != 0 then set_width w2.id r.width else [])
          ++ (if r.centered then set_centered w2.id r.width r.height else []))
  | none => (w1, [])

/-- Decode a window object from an event payload.  niri window objects carry
an integer `id` and string `title`/`app_id`; a payload without an `id`
raises (`update_matched` subscripts it immediately), while `title`/`app_id`
are only read under a rule pattern and are modelled with `""` defaults. -/
def winOfJson (v : JVal) : Except PyErr Window :=
  match v with
  | .obj fs =>
      match pyDictGet fs "id" with
      | some (.int i) =>
          .ok { id := i,
                title := (match pyDictGet fs "title" with | some (.str s) => s | _ => ""),
                app_id := (match pyDictGet fs "app_id" with | some (.str s) => s | _ => ""),
                matched := false }
      | _ => .error .keyError
  | _ => .error .typeError

/-- The `WindowsChanged` branch body: run `update_matched` on every window in
the payload against the pre-event registry, collecting actions in order. -/
def stepWindowsChanged (rs : String → String → Bool) (rules : List Rule)
    (windows : Registry) : List JVal → Except PyErr (List Window × List NiriAction)
  | [] => .ok ([], [])
  | wj :: rest =>
      match winOfJson wj with
      | .error e => .error e
      | .ok w =>
          let (w2, acts) := update_matched rs rules windows w
          match stepWindowsChanged rs rules windows rest with
          | .error e => .error e
          | .ok (ws, acts2) => .ok (w2 :: ws, acts ++ acts2)

/-- The dict comprehension `{win["id"]: win for win in ...}` (a later
duplicate id overwrites, keeping the first occurrence's position). -/
def buildRegistry (ws : List Window) : Registry :=
  ws.foldl (fun d w => pyDictSet d w.id w) []

/-- One iteration of the event loop body on a decoded event.  Dispatch is by
walrus-and-truthiness (`if changed := event.get(...)`), exactly one branch
per event; unrecognized shapes fall through with no effect.  `WindowClosed`
deletes with `del windows[changed["id"]]`, which raises `KeyError` when the
id is absent. -/
def stepEvent (rs : String → String → Bool) (rules : List Rule)
    (windows : Registry) (event : JVal) : Except PyErr (Registry × List NiriAction) :=
  match event with
  | .obj fs =>
      let wc := pyDictGet fs "WindowsChanged"
      if optTruthy wc then
        match wc with
        | some (.obj cf) =>
            match pyDictGet cf "windows" with
            | some (.arr wins) =>
                match stepWindowsChanged rs rules windows wins with
                | .error e => .error e
                | .ok (ws, acts) => .ok (buildRegistry ws, acts)
            | some _ => .error .typeError
            | none => .error .keyError
        | _ => .error .typeError
      else
        let woc := pyDictGet fs "WindowOpenedOrChanged"
        if optTruthy woc then
          match woc with
          | some (.obj cf) =>
              match pyDictGet cf "window" with
              | some wj =>
                  match winOfJson wj with
                  | .error e => .error e
                  | .ok w =>
                      let (w2, acts) := update_matched rs rules windows w
                      .ok (pyDictSet windows w2.id w2, acts)
              | none => .error .keyError
          | _ => .error .typeError
        else
          let wcl := pyDictGet fs "WindowClosed"
          if optTruthy wcl then
            match wcl with
            | some (.obj cf) =>
                match pyDictGet cf "id" with
                | some (.int i) =>
                    if pyDictHas windows i then .ok (pyDictDel windows i, [])
                    else .error .keyError
                | some _ => .error .keyError
                | none => .error .keyError
            | _ => .error .typeError
          else .ok (windows, [])
  | _ => .error .attributeError

/-- The stream-consuming `for line in file:` loop: `json.loads` each line and
dispatch.  There is no `try`/`except` in the loop, so a raised exception
(decode error included) aborts it; the result is the final registry and all
actions sent, or the first uncaught exception. -/
def runLoop (rs : String → String → Bool) (rules : List Rule)
    (windows : Registry) : List String → Except PyErr (Registry × List NiriAction)
  | [] => .ok (windows, [])
  | line :: rest =>
      match jsonLoads line with
      | none => .error .jsonDecodeError
      | some ev =>
          match stepEvent rs rules windows ev with
          | .error e => .error e
          | .ok (w2, acts) =>
              match runLoop rs rules w2 rest with
              | .error e => .error e
              | .ok (w3, acts2) => .ok (w3, acts ++ acts2)

/-- A `WindowClosed` event payload. -/
def closedEvent (id : Int) : JVal :=
  .obj [("WindowClosed", .obj [("id", .int id)])]

/-! ### helpers/general_helpers.py - `ScriptConfig` persisted state

The state file is modelled as `Option String` (`none` when the file does not
exist).  `save_state` swallows `IOError`/`OSError` after logging, so a
successful write is the modelled outcome; `load_state` is modelled at its
call sites' default (`default=None`, hence `{}`). -/

/-- Model of `ScriptConfig.save_state(state)`: the file afterwards holds
`json.dump(state, f, indent=2)`. -/
def save_state (state : JVal) : Option String :=
  some (String.mk (dumpIndent 0 state))

/-- Model of `ScriptConfig.load_state()`: parse the file with `json.load`,
returning `{}` when the file is missing (`FileNotFoundError`) or malformed
(`JSONDecodeError`). -/
def load_state (file : Option String) : JVal :=
  match file with
  | none => .obj []
  | some txt =>
      match jsonLoads txt with
      | some v => v
      | none => .obj []

/-! ### modules/niri/window_glancer.py

Configuration values and the two IPC responses are parameters; the
title-regex search `re.search(WINDOW_TITLE_REGEX, title, re.IGNORECASE)` is
the same oracle abstraction `rs` (pattern first). -/

/-- A window as `find_target_window` reads it: `win["id"]`, `win.get("title",
"")`, and the two optional layout pairs. `pos`/`size` are `none` when
`layout` or the nested key is missing or null. -/
structure GWin where
  id : Int
  title : String
  pos : Option (List Int) := none
  size : Option (List Int) := none

/-- A workspace record as `get_workspace_info` reads it.  `output` is kept
raw: the code accepts both a string and a `{..., "name": ...}` mapping. -/
structure WsRec where
  output : Option JVal := none
  idx : Option Int := none
  is_focused : Bool := false
  is_active : Bool := false
  active_window_id : Option Int := none

/-- The summary `get_workspace_info` returns. -/
structure WsInfo where
  active_window_id : Option Int
  last_workspace_idx : Int
  focused : Bool

/-- The five configuration values the script loads. -/
structure GlancerCfg where
  window_title_regex : String
  glance_workspace_name : String
  primary_monitor : String
  secondary_monitor : String
  primary_workspace : String

/-- The environment one invocation observes: the three request results
(`none` = `send_request` returned `None`) and the state-file contents.
`focusedResp` is the `"FocusedWindow"` result after envelope unwrapping:
`none` models Python `None` (failed request, or no focused window), whose
`["id"]` subscript raises `TypeError`. -/
structure GlancerEnv where
  windowsResp : Option (List GWin)
  workspacesResp : Option (List WsRec)
  focusedResp : Option Int
  stateFile : Option String

/-- `ws.get("output")` massaged as in the source (`.get("name")` when it is a
mapping) and compared with `== monitor_name`. -/
def wsOutputMatches (ws : WsRec) (monitor : String) : Bool :=
  match ws.output with
  | some (.obj fs) =>
      match pyDictGet fs "name" with
      | some (.str s) => s == monitor
      | _ => false
  | some (.str s) => s == monitor
  | _ => false

/-- `get_workspace_info(monitor_name)`: iterate the "Workspaces" response for
the monitor's workspaces, collecting indices, the focused flag and the last
active workspace's window.  When `send_request` returned `None`, the `for`
statement raises `TypeError` (there is no `or []` guard here). -/
def get_workspace_info (resp : Option (List WsRec)) (monitor : String) :
    Except PyErr WsInfo :=
  match resp with
  | none => .error .typeError
  | some wss =>
      let st := wss.foldl
        (fun (st : Option Int × List Int × Bool) ws =>
          if wsOutputMatches ws monitor then
            let st1 : Option Int × List Int × Bool :=
              (st.1, st.2.1 ++ [ws.idx.getD 0], st.2.2)
            let st2 : Option Int × List Int × Bool :=
              if ws.is_focused then (st1.1, st1.2.1, true) else st1
            if ws.is_active then (ws.active_window_id, st2.2.1, st2.2.2) else st2
          else st)
        (none, [], false)
      .ok { active_window_id := st.1,
            last_workspace_idx := ((st.2.1.mergeSort (fun a b => a ≤ b)).getLast?).getD 0,
            focused := st.2.2 }

/-- `find_target_window()`: scan the "Windows" response (`or []` turns a
failed request into an empty list) for the first title match; return its id
and the optional column/width read from `layout` (`pos[0] if pos and
len(pos) >= 2 else None`, same for `window_size`). -/
def find_target_window (rs : String → String → Bool) (pattern : String)
    (resp : Option (List GWin)) : Option (Int × Option Int × Option Int) :=
  match (resp.getD []).find? (fun w => rs pattern w.title) with
  | some w =>
      some (w.id,
        (match w.pos with
         | some (a :: _ :: _) => some a
         | _ => none),
        (match w.size with
         | some (a :: _ :: _) => some a
         | _ => none))
  | none => none

/-- The Python value of `d.get(key)` over a parsed JSON dict: `None` both for
a missing key and for a stored JSON null. -/
def pyGetOpt (fs : List (String × JVal)) (k : String) : Option JVal :=
  match pyDictGet fs k with
  | some .null => none
  | x => x

/-- `get_current_state()`: read the persisted record with defaults
(`"primary"` fires only when the key is missing).  A state file whose JSON
is not a mapping would raise `AttributeError` at `.get`. -/
def get_current_state (file : Option String) :
    Except PyErr (Option JVal × Option JVal × Option JVal × Option JVal) :=
  match load_state file with
  | .obj fs =>
      .ok ((match pyDictGet fs "state" with
            | none => some (.str "primary")
            | some .null => none
            | some v => some v),
        pyGetOpt fs "saved_column", pyGetOpt fs "saved_width",
        pyGetOpt fs "saved_secondary_window_id")
  | _ => .error .attributeError

/-- window_glancer's `save_state(state, saved_column, saved_width,
saved_secondary_window_id)`: build the four-key record (Python `None`
becomes JSON null) and persist it through `ScriptConfig.save_state`. -/
def glancer_save_state (state : String)
    (saved_column saved_width saved_secondary_window_id : Option Int) : Option String :=
  save_state (.obj [("state", .str state),
    ("saved_column", match saved_column with | some i => .int i | none => .null),
    ("saved_width", match saved_width with | some i => .int i | none => .null),
    ("saved_secondary_window_id",
      match saved_secondary_window_id with | some i => .int i | none => .null)])

/-- `move_to_primary()`: abort with `False` when no target window is found
(`if not window_id:`, so a window id of 0 also aborts), else unset the
glance workspace name, focus, restore width/position, and persist
`state="primary"`.  Returns (success, actions sent, state file after). -/
def move_to_primary (rs : String → String → Bool) (cfg : GlancerCfg)
    (env : GlancerEnv) : Except PyErr (Bool × List NiriAction × Option String) :=
  match find_target_window rs cfg.window_title_regex env.windowsResp with
  | none => .ok (false, [], env.stateFile)
  | some (window_id, _, _) =>
      if window_id == 0 then .ok (false, [], env.stateFile)
      else
        match get_current_state env.stateFile with
        | .error e => .error e
        | .ok (_, saved_column, saved_width, saved_secondary) =>
            .ok (true,
              [.unsetWorkspaceName cfg.glance_workspace_name,
               .focusWindow (.int window_id)]
                ++ (match saved_width with
                    | some v => if pyTruthy v then [NiriAction.setColumnWidth v] else []
                    | none => [])
                ++ [.moveColumnToWorkspaceUp true,
                    .moveColumnToWorkspace cfg.primary_workspace true]
                ++ (match saved_column with
                    | some v => [NiriAction.moveColumnToIndex v]
                    | none => [])
                ++ (match saved_secondary with
                    | some v => [NiriAction.focusWindow v]
                    | none => [])
                ++ [.focusWindow (.int window_id)],
              glancer_save_state "primary" none none none)

/-- `move_to_glance()`: abort with `False` when no target window is found,
else snapshot the secondary monitor, name its last workspace, move the
window there at full width, conditionally restore focus, and persist
`state="glance"` with the saved layout.  On the `TypeError` path (focused
window lookup failed while the secondary monitor was unfocused) the model
reports only the exception; the actions already sent before that subscript
are not needed by any property below. -/
def move_to_glance (rs : String → String → Bool) (cfg : GlancerCfg)
    (env : GlancerEnv) : Except PyErr (Bool × List NiriAction × Option String) :=
  match find_target_window rs cfg.window_title_regex env.windowsResp with
  | none => .ok (false, [], env.stateFile)
  | some (window_id, column_index, width) =>
      if window_id == 0 then .ok (false, [], env.stateFile)
      else
        match get_workspace_info env.workspacesResp cfg.secondary_monitor with
        | .error e => .error e
        | .ok secondary_info =>
            let acts : List NiriAction :=
              [.focusMonitor cfg.secondary_monitor,
               .setWorkspaceName cfg.glance_workspace_name
                 secondary_info.last_workspace_idx,
               .focusWindow (.int window_id),
               .setWindowWidth window_id (.setProportion 100),
               .moveColumnToWorkspace cfg.glance_workspace_name true]
            if secondary_info.focused then
              .ok (true, acts,
                glancer_save_state "glance" column_index width
                  secondary_info.active_window_id)
            else
              match env.focusedResp with
              | none => .error .typeError
              | some fid =>
                  .ok (true, acts ++ [.focusWindow (.int fid)],
                    glancer_save_state "glance" column_index width
                      secondary_info.active_window_id)

/-- `toggle()`: `state == "primary"` sends the window to glance, anything
else restores primary. -/
def glancer_toggle (rs : String → String → Bool) (cfg : GlancerCfg)
    (env : GlancerEnv) : Except PyErr (Bool × List NiriAction × Option String) :=
  match get_current_state env.stateFile with
  | .error e => .error e
  | .ok (state, _, _, _) =>
      if (match state with | some (.str s) => s == "primary" | _ => false) then
        move_to_glance rs cfg env
      else move_to_primary rs cfg env

/-! ### modules/niri/launch_music.py -/

/-- Where `w['layout']['pos_in_scrolling_layout'][0]` can go wrong: each
constructor is one shape of the nested access, with the exception Python
raises for it. -/
inductive LPos where
  | noLayout
  | noPos
  | posNull
  | posList (l : List Int)

/-- A window as the launcher reads it (`.get` for the match fields, raw
subscripts for the layout). -/
structure MWin where
  id : Int
  app_id : Option String := none
  workspace_id : Option Int := none
  is_floating : Bool := false
  layout_pos : LPos := .noLayout

/-- A workspace as `main` step 1 reads it. -/
structure LWs where
  id : Option Int := none
  name : Option String := none

/-- `get_niri_state()`: the pair of raw request results. -/
def get_niri_state (workspacesResp : Option (List LWs))
    (windowsResp : Option (List MWin)) : Option (List LWs) × Option (List MWin) :=
  (workspacesResp, windowsResp)

/-- `main` step 1: scan the workspaces for `WORKSPACE_NAME`; a failed
"Workspaces" request (`None`) makes the `for` raise `TypeError`. -/
def resolve_workspace (resp : Option (List LWs)) (workspace_name : String) :
    Except PyErr (Option Int) :=
  match resp with
  | none => .error .typeError
  | some wss => .ok ((wss.find? (fun ws => ws.name == some workspace_name)).bind
      (fun ws => ws.id))

/-- `f"brave-{id_str}-{PROFILE_SUFFIX}"`. -/
def niri_app_id (profile_suffix id_str : String) : String :=
  "brave-" ++ id_str ++ "-" ++ profile_suffix

/-- The running-app test used in steps 2, 5 and 6. -/
def matchesApp (w : MWin) (the_app_id : String) (wsId : Int) : Bool :=
  w.app_id == some the_app_id && w.workspace_id == some wsId && !w.is_floating

/-- One wait-loop refresh: for each still-missing app, record the first
matching window's id. -/
def updateWindowMap (apps_to_launch : List String) (profile_suffix : String)
    (wsId : Int) (ws : List MWin) (wmap : List (String × Int)) : List (String × Int) :=
  apps_to_launch.foldl
    (fun m id_str =>
      if pyDictHas m id_str then m
      else
        match ws.find? (fun w => matchesApp w (niri_app_id profile_suffix id_str) wsId) with
        | some w => m ++ [(id_str, w.id)]
        | none => m)
    wmap

/-- Outcomes of the polling loop in `main` step 5. -/
inductive WaitOut where
  | timedOut
  | completed (wmap : List (String × Int))
  | fetchFailed
  | exhausted

/-- The `while len(window_map) < expected_count:` loop.  Each poll supplies
the elapsed time observed at the top of the iteration and the refreshed
window list (`none` when the "Windows" request failed, making the inner
`for` raise `TypeError`).  `exhausted` is a model artifact for a poll trace
that ends while the loop would still be waiting. -/
def waitLoop (timeout : ℚ) (expected : Nat) (apps_to_launch : List String)
    (profile_suffix : String) (wsId : Int) :
    List (ℚ × Option (List MWin)) → List (String × Int) → WaitOut
  | polls, wmap =>
      if expected ≤ wmap.length then .completed wmap
      else
        match polls with
        | [] => .exhausted
        | (t, fetch) :: rest =>
            if timeout < t then .timedOut
            else
              match fetch with
              | none => .fetchFailed
              | some ws =>
                  waitLoop timeout expected apps_to_launch profile_suffix wsId rest
                    (updateWindowMap apps_to_launch profile_suffix wsId ws wmap)

/-- The subscript chain `w['layout']['pos_in_scrolling_layout'][0]`. -/
def posCol (w : MWin) : Except PyErr Int :=
  match w.layout_pos with
  | .noLayout => .error .keyError
  | .noPos => .error .keyError
  | .posNull => .error .typeError
  | .posList [] => .error .indexError
  | .posList (c :: _) => .ok c

/-- `min(target_windows, key=...)` continuation: keep the first window with
the strictly smallest column, propagating any key-evaluation exception. -/
def leftmostGo (best : MWin) (bestCol : Int) : List MWin → Except PyErr MWin
  | [] => .ok best
  | w :: ws =>
      match posCol w with
      | .error e => .error e
      | .ok c => if c < bestCol then leftmostGo w c ws else leftmostGo best bestCol ws

/-- `min(target_windows, key=lambda w: w['layout']['pos_in_scrolling_layout'][0])`;
empty input raises `ValueError`. -/
def leftmost_window (targets : List MWin) : Except PyErr MWin :=
  match targets with
  | [] => .error .valueError
  | w :: ws =>
      match posCol w with
      | .error e => .error e
      | .ok c => leftmostGo w c ws

/-- The `except (KeyError, TypeError, ValueError)` filter around the
leftmost-window computation (`IndexError` is NOT caught). -/
def isCaughtLayoutErr : PyErr → Bool
  | .keyError => true
  | .typeError => true
  | .valueError => true
  | _ => false

/-- `main` step 7, the stacking burst. -/
def stackBurst (leftmost_id : Int) (expected : Nat)
    (wmap : List (String × Int)) : List NiriAction :=
  [NiriAction.focusWindow (.int leftmost_id)]
    ++ List.replicate (expected - 1) NiriAction.consumeWindowIntoColumn
    ++ [NiriAction.moveColumnToFirst]
    ++ (wmap.map (fun p => p.2)).flatMap
        (fun wid => [NiriAction.focusWindow (.int wid), .toggleWindowRuleOpacity])
    ++ [NiriAction.focusWindow (.int leftmost_id)]

/-- The outcome of `main` from the wait loop on: a process exit code with the
actions sent after the loop, an uncaught exception, or `undetermined` when
the supplied poll trace ran out. -/
inductive MainOut where
  | exit (code : Nat) (acts : List NiriAction)
  | raised (e : PyErr)
  | undetermined

/-- `main` steps 5-7: wait for the launched apps, re-fetch and select the
expected windows, find the leftmost, and fire the stacking burst.  On
timeout the function returns exit code 1 before any of that.  `finalFetch`
is the step-6 "Windows" re-fetch. -/
def mainFromWait (timeout : ℚ) (app_id_strings apps_to_launch : List String)
    (profile_suffix : String) (wsId : Int)
    (polls : List (ℚ × Option (List MWin))) (wmap0 : List (String × Int))
    (finalFetch : Option (List MWin)) : MainOut :=
  let expected := app_id_strings.length
  match waitLoop timeout expected apps_to_launch profile_suffix wsId polls wmap0 with
  | .exhausted => .undetermined
  | .timedOut => .exit 1 []
  | .fetchFailed => .raised .typeError
  | .completed wmap =>
      match finalFetch with
      | none => .raised .typeError
      | some all_windows =>
          let target_windows := all_windows.filter (fun w =>
            app_id_strings.any (fun s => w.app_id == some (niri_app_id profile_suffix s))
              && w.workspace_id == some wsId && !w.is_floating)
          if target_windows.length != expected then .exit 1 []
          else
            match leftmost_window target_windows with
            | .error e => if isCaughtLayoutErr e then .exit 1 [] else .raised e
            | .ok leftmost => .exit 0 (stackBurst leftmost.id expected wmap)

/-! ### Concrete fixtures used by witnesses and counterexamples -/

/-- A regex oracle matching exactly the pattern itself. -/
def rsEq : String → String → Bool := fun pat s => s == pat

/-- A regex oracle that never matches. -/
def rsNever : String → String → Bool := fun _ _ => false

def w0 : Window := { id := 1, title := "w", app_id := "a" }

/-- A rule with empty match and exclude lists. -/
def r0 : Rule := {}

/-- A rule with an empty match list but one exclude predicate. -/
def r1 : Rule := { exclude := [{ title := some "x" }] }

def rules1 : List Rule := [{ «match» := [{ title := some "t" }] }]

def wMatched : Window := { id := 1, title := "t", app_id := "a", matched := true }

def wIncoming : Window := { id := 1, title := "t", app_id := "a" }

def cfg0 : GlancerCfg :=
  { window_title_regex := "xyz", glance_workspace_name := "glance",
    primary_monitor := "M1", secondary_monitor := "M2", primary_workspace := "main" }

def env0 : GlancerEnv :=
  { windowsResp := some [{ id := 5, title := "term" }], workspacesResp := none,
    focusedResp := none, stateFile := some "prev" }

/-! ### Number codec lemmas -/

/-- Digit characters carry their value and pass the digit test. -/
theorem digitChar_spec : ∀ k, k < 10 →
    isDigitChar (Char.ofNat (48 + k)) = true
      ∧ (Char.ofNat (48 + k)).toNat - 48 = k := by decide

/-- Lowercase hex digits decode back to their nibble. -/
theorem hexNib_spec : ∀ k, k < 16 → hexDigVal (hexNib k) = some k := by decide

/-- The digit accumulator distributes over the seed list. -/
theorem natDigs_acc (n : Nat) : ∀ acc : List Char, natDigs n acc = natDigs n [] ++ acc := by
  induction n using Nat.strongRecOn with
  | _ n ih =>
    intro acc
    by_cases h : n < 10
    · rw [natDigs.eq_def n acc, natDigs.eq_def n [], if_pos h, if_pos h]
      rfl
    · rw [natDigs.eq_def n acc, natDigs.eq_def n [], if_neg h, if_neg h,
        ih (n / 10) (by omega), ih (n / 10) (by omega) (Char.ofNat (48 + n % 10) :: []),
        List.append_assoc]
      rfl

/-- Peel the least significant digit off the back of the digit run. -/
theorem natDigs_snoc (n : Nat) :
    natDigs n [] = (if n < 10 then [] else natDigs (n / 10) [])
      ++ [Char.ofNat (48 + n % 10)] := by
  rw [natDigs.eq_def]
  by_cases h : n < 10
  · simp [h]
  · simp only [if_neg h]
    exact natDigs_acc (n / 10) [_]

theorem natDigs_ne_nil (n : Nat) : natDigs n [] ≠ [] := by
  rw [natDigs_snoc]
  simp

theorem natDigs_all_digits (n : Nat) : ∀ c ∈ natDigs n [], isDigitChar c = true := by
  induction n using Nat.strongRecOn with
  | _ n ih =>
    rw [natDigs_snoc]
    intro c hc
    rcases List.mem_append.mp hc with h | h
    · by_cases h10 : n < 10
      · simp [h10] at h
      · exact ih (n / 10) (by omega) c (by simpa [h10] using h)
    · rw [List.mem_singleton] at h
      subst h
      exact (digitChar_spec _ (Nat.mod_lt _ (by omega))).1

/-- Folding the decimal digits of `n` back up recovers `n`. -/
theorem digsVal_natDigs (n : Nat) : digsVal (natDigs n []) = n := by
  induction n using Nat.strongRecOn with
  | _ n ih =>
    rw [digsVal, natDigs_snoc, List.foldl_append]
    by_cases h : n < 10
    · simp only [if_pos h, List.foldl_nil, List.foldl_cons]
      rw [(digitChar_spec _ (Nat.mod_lt _ (by omega))).2]
      omega
    · simp only [if_neg h, List.foldl_cons, List.foldl_nil]
      have hd := ih (n / 10) (by omega)
      rw [digsVal] at hd
      rw [hd, (digitChar_spec _ (Nat.mod_lt _ (by omega))).2]
      omega

theorem takeDigs_not_digit {c : Char} {t : List Char} (h : isDigitChar c = false) :
    takeDigs (c :: t) = ([], c :: t) := by
  simp [takeDigs, h]

/-- A remainder that cannot continue an integer literal: empty, or headed by a
character that is neither a digit nor `.`, `e`, `E`.  Commas, newlines and
closing brackets all qualify. -/
def intStop : List Char → Bool
  | [] => true
  | c :: _ => !(isDigitChar c || c == '.' || c == 'e' || c == 'E')

theorem intStop_head {c : Char} {t : List Char} (h : intStop (c :: t) = true) :
    isDigitChar c = false ∧ c ≠ '.' ∧ c ≠ 'e' ∧ c ≠ 'E' := by
  simp only [intStop, Bool.not_eq_true', Bool.or_eq_false_iff, beq_eq_false_iff_ne] at h
  exact ⟨h.1.1.1, h.1.1.2, h.1.2, h.2⟩

theorem takeDigs_intStop {cs : List Char} (h : intStop cs = true) :
    takeDigs cs = ([], cs) := by
  match cs with
  | [] => rfl
  | c :: t => exact takeDigs_not_digit (intStop_head h).1

/-- `takeDigs` splits off exactly a given digit run. -/
theorem takeDigs_of_run (ds : List Char) (hds : ∀ c ∈ ds, isDigitChar c = true)
    (rest : List Char) (hrest : takeDigs rest = ([], rest)) :
    takeDigs (ds ++ rest) = (ds, rest) := by
  induction ds with
  | nil => simpa using hrest
  | cons c t ih =>
      have hc : isDigitChar c = true := hds c (List.mem_cons_self ..)
      have ht := ih (fun x hx => hds x (List.mem_cons_of_mem _ hx))
      simp [takeDigs, hc, ht]

theorem floatFollows_of_intStop {cs : List Char} (h : intStop cs = true) :
    floatFollows cs = false := by
  match cs with
  | [] => rfl
  | c :: t =>
      obtain ⟨-, h1, h2, h3⟩ := intStop_head h
      simp [floatFollows, h1, h2, h3]

/-- Digit runs are nonempty and digit-headed. -/
theorem natDigs_head (n : Nat) :
    ∃ c t, natDigs n [] = c :: t ∧ isDigitChar c = true := by
  match h : natDigs n [] with
  | [] => exact absurd h (natDigs_ne_nil n)
  | c :: t => exact ⟨c, t, rfl, natDigs_all_digits n c (h ▸ List.mem_cons_self ..)⟩

theorem digit_ne_minus {c : Char} (h : isDigitChar c = true) : c ≠ '-' := by
  intro hc
  subst hc
  exact absurd h (by decide)

/-- The integer codec round-trip: scanning rendered digits recovers the int
whenever the remainder cannot extend the literal. -/
theorem scanInt_intDigs (i : Int) (rest : List Char) (hr : intStop rest = true) :
    scanInt (intDigs i ++ rest) = some (i, rest) := by
  obtain ⟨c, t, hct, hcdig⟩ := natDigs_head i.natAbs
  have htake : takeDigs (natDigs i.natAbs [] ++ rest) = (natDigs i.natAbs [], rest) :=
    takeDigs_of_run _ (natDigs_all_digits _) rest (takeDigs_intStop hr)
  have hcond : ((natDigs i.natAbs []).isEmpty || floatFollows rest) = false := by
    rw [hct, floatFollows_of_intStop hr]
    rfl
  by_cases hi : i < 0
  · have harg : intDigs i ++ rest = '-' :: (natDigs i.natAbs [] ++ rest) := by
      simp [intDigs, hi]
    rw [harg]
    simp only [scanInt, if_pos rfl, htake, hcond, Bool.false_eq_true, if_false,
      digsVal_natDigs]
    exact congrArg (fun z => some (z, rest)) (by omega)
  · have harg : intDigs i ++ rest = c :: (t ++ rest) := by
      simp [intDigs, hi, hct]
    rw [harg]
    simp only [scanInt, if_neg (digit_ne_minus hcdig)]
    rw [show c :: (t ++ rest) = natDigs i.natAbs [] ++ rest by simp [hct]]
    simp only [htake, hcond, Bool.false_eq_true, if_false, digsVal_natDigs]
    exact congrArg (fun z => some (z, rest)) (by omega)


/-! ### String codec lemmas -/

/-- A character's code point avoids the surrogate range and stays below
`0x110000`; this is exactly `Char`'s validity invariant. -/
theorem char_toNat_valid (c : Char) :
    c.toNat < 55296 ∨ (57343 < c.toNat ∧ c.toNat < 1114112) := by
  have h := c.valid
  simp only [UInt32.isValidChar, Nat.isValidChar] at h
  exact h

theorem hex4Val_hex4 (n : Nat) (h : n < 65536) :
    hex4Val (hexNib (n / 4096 % 16)) (hexNib (n / 256 % 16))
      (hexNib (n / 16 % 16)) (hexNib (n % 16)) = some n := by
  have h16 : ∀ k : Nat, k % 16 < 16 := fun k => Nat.mod_lt _ (by omega)
  simp only [hex4Val, hexNib_spec _ (h16 _), Option.bind_eq_bind, Option.some_bind]
  exact congrArg some (by omega)

/-- One scanning step over an unescaped ordinary character. -/
theorem scanStr_cons_lit (fuel : Nat) (acc rest : List Char) (c : Char)
    (h1 : ¬c = '"') (h2 : ¬c = '\\') (h3 : ¬c.toNat < 32) :
    scanStr (fuel + 1) acc (c :: rest) = scanStr fuel (c :: acc) rest := by
  simp only [scanStr, if_neg h1, if_neg h2, if_neg h3]

/-- One scanning step over a backslash escape. -/
theorem scanStr_cons_esc (fuel : Nat) (acc rest rest2 : List Char) (ch : Char)
    (h : unescapeHead rest = some (ch, rest2)) :
    scanStr (fuel + 1) acc ('\\' :: rest) = scanStr fuel (ch :: acc) rest2 := by
  simp only [scanStr, h]
  simp

/-- Unfold `hex4` in front of a tail. -/
theorem hex4_append (n : Nat) (x : List Char) :
    hex4 n ++ x = hexNib (n / 4096 % 16) :: hexNib (n / 256 % 16)
      :: hexNib (n / 16 % 16) :: hexNib (n % 16) :: x := by
  simp [hex4]

/-- Decoding a plain (non-surrogate) `\uXXXX` payload. -/
theorem unescU_hex4 (n : Nat) (rest : List Char) (hn : n < 65536)
    (hs : ¬(55296 ≤ n ∧ n < 57344)) :
    unescU (hex4 n ++ rest) = some (Char.ofNat n, rest) := by
  rw [hex4_append]
  simp only [unescU, hex4Val_hex4 n hn]
  rw [if_neg (by simp only [Bool.and_eq_true, decide_eq_true_eq, not_and]; omega),
    if_neg (by simp only [Bool.and_eq_true, decide_eq_true_eq, not_and]; omega)]

/-- Decoding a surrogate pair back to its astral code point. -/
theorem unescU_pair (v : Nat) (rest : List Char) (hv : v < 1048576) :
    unescU (hex4 (55296 + v / 1024) ++ ('\\' :: 'u' :: (hex4 (56320 + v % 1024) ++ rest)))
      = some (Char.ofNat (65536 + v), rest) := by
  have hhi : 55296 + v / 1024 < 65536 := by omega
  have hlo : 56320 + v % 1024 < 65536 := by
    have := Nat.mod_lt v (show 0 < 1024 by omega)
    omega
  rw [hex4_append, hex4_append]
  simp only [unescU, hex4Val_hex4 _ hhi, hex4Val_hex4 _ hlo]
  rw [if_pos (by simp only [Bool.and_eq_true, decide_eq_true_eq]; omega)]
  rw [if_pos (by decide)]
  rw [if_pos (by simp only [Bool.and_eq_true, decide_eq_true_eq]; omega)]
  have hmod : v % 1024 < 1024 := Nat.mod_lt v (by omega)
  exact congrArg (fun k => some (Char.ofNat k, rest)) (by omega)

/-- Scanning one escaped character pushes exactly that character and spends one
unit of fuel. -/
theorem scanStr_escChar (c : Char) (fuel : Nat) (acc rest : List Char) :
    scanStr (fuel + 1) acc (escChar c ++ rest) = scanStr fuel (c :: acc) rest := by
  by_cases h1 : c = '"'
  · subst h1; rfl
  by_cases h2 : c = '\\'
  · subst h2; rfl
  by_cases h3 : c = '\n'
  · subst h3; rfl
  by_cases h4 : c = '\r'
  · subst h4; rfl
  by_cases h5 : c = '\t'
  · subst h5; rfl
  by_cases h6 : c.toNat = 8
  · have hc : c = Char.ofNat 8 := by rw [← h6, Char.ofNat_toNat]
    subst hc; rfl
  by_cases h7 : c.toNat = 12
  · have hc : c = Char.ofNat 12 := by rw [← h7, Char.ofNat_toNat]
    subst hc; rfl
  by_cases h8 : 32 ≤ c.toNat ∧ c.toNat ≤ 126
  · have hesc : escChar c = [c] := by
      rw [escChar, if_neg h1, if_neg h2, if_neg h3, if_neg h4, if_neg h5, if_neg h6,
        if_neg h7, if_pos (by simp only [Bool.and_eq_true, decide_eq_true_eq]; exact h8)]
    rw [hesc, List.singleton_append, scanStr_cons_lit fuel acc rest c h1 h2 (by omega)]
  by_cases h9 : c.toNat < 65536
  · have hesc : escChar c = '\\' :: 'u' :: hex4 c.toNat := by
      rw [escChar, if_neg h1, if_neg h2, if_neg h3, if_neg h4, if_neg h5, if_neg h6,
        if_neg h7, if_neg (by simp only [Bool.and_eq_true, decide_eq_true_eq]; omega),
        if_pos h9]
    have hval := char_toNat_valid c
    have hu : unescapeHead ('u' :: (hex4 c.toNat ++ rest))
        = some (Char.ofNat c.toNat, rest) := by
      simp [unescapeHead, unescU_hex4 c.toNat rest h9 (by omega)]
    rw [hesc, show ('\\' :: 'u' :: hex4 c.toNat) ++ rest
        = '\\' :: ('u' :: (hex4 c.toNat ++ rest)) from by simp]
    rw [scanStr_cons_esc fuel acc _ rest (Char.ofNat c.toNat) hu, Char.ofNat_toNat]
  · have hval := char_toNat_valid c
    have hesc : escChar c = '\\' :: 'u' :: hex4 (55296 + (c.toNat - 65536) / 1024)
        ++ ('\\' :: 'u' :: hex4 (56320 + (c.toNat - 65536) % 1024)) := by
      rw [escChar, if_neg h1, if_neg h2, if_neg h3, if_neg h4, if_neg h5, if_neg h6,
        if_neg h7, if_neg (by simp only [Bool.and_eq_true, decide_eq_true_eq]; omega),
        if_neg h9]
    have hcomb : 65536 + (c.toNat - 65536) = c.toNat := by omega
    have hu : unescapeHead ('u' :: (hex4 (55296 + (c.toNat - 65536) / 1024)
        ++ ('\\' :: 'u' :: (hex4 (56320 + (c.toNat - 65536) % 1024) ++ rest))))
        = some (Char.ofNat c.toNat, rest) := by
      simp [unescapeHead, unescU_pair (c.toNat - 65536) rest (by omega), hcomb,
        Char.ofNat_toNat]
    rw [hesc, show ('\\' :: 'u' :: hex4 (55296 + (c.toNat - 65536) / 1024)
          ++ ('\\' :: 'u' :: hex4 (56320 + (c.toNat - 65536) % 1024))) ++ rest
        = '\\' :: ('u' :: (hex4 (55296 + (c.toNat - 65536) / 1024)
          ++ ('\\' :: 'u' :: (hex4 (56320 + (c.toNat - 65536) % 1024) ++ rest)))) from by
      simp]
    rw [scanStr_cons_esc fuel acc _ rest (Char.ofNat c.toNat) hu, Char.ofNat_toNat]

/-- Scanning an escaped body stops exactly at the closing quote and recovers
the body (fuel exceeding the body length always suffices). -/
theorem scanStr_escStr (s : List Char) : ∀ (fuel : Nat) (acc rest : List Char),
    s.length < fuel →
    scanStr fuel acc (escStr s ++ '"' :: rest) = some (acc.reverse ++ s, rest) := by
  induction s with
  | nil =>
      intro fuel acc rest h
      match fuel, h with
      | fuel + 1, _ =>
        simp [escStr, scanStr]
  | cons c cs ih =>
      intro fuel acc rest h
      match fuel, h with
      | fuel + 1, h =>
        rw [escStr, List.append_assoc, scanStr_escChar,
          ih fuel (c :: acc) rest (by simpa using Nat.lt_of_succ_lt_succ h)]
        simp

/-- Escaping never shrinks a string. -/
theorem length_le_escStr (s : List Char) : s.length ≤ (escStr s).length := by
  induction s with
  | nil => simp [escStr]
  | cons c cs ih =>
      have : 1 ≤ (escChar c).length := by
        rw [escChar]
        repeat' split
        all_goals simp
      rw [escStr]
      simp only [List.length_append, List.length_cons]
      omega

/-! ### Whitespace and dispatch lemmas -/

theorem skipWs_cons_not (c : Char) (t : List Char) (h : isWsChar c = false) :
    skipWs (c :: t) = c :: t := by
  simp [skipWs, h]

theorem skipWs_all_ws (w : List Char) (hw : ∀ c ∈ w, isWsChar c = true) (t : List Char) :
    skipWs (w ++ t) = skipWs t := by
  induction w with
  | nil => simp
  | cons c cs ih =>
      rw [List.cons_append, skipWs, if_pos (hw c (List.mem_cons_self ..))]
      exact ih fun x hx => hw x (List.mem_cons_of_mem _ hx)

theorem nlInd_length (k : Nat) : (nlInd k).length = k + 1 := by
  simp [nlInd]

theorem nlInd_cons (k : Nat) (t : List Char) :
    nlInd k ++ t = '\n' :: (List.replicate k ' ' ++ t) := by
  simp [nlInd]

theorem skipWs_nlInd (k : Nat) (t : List Char) : skipWs (nlInd k ++ t) = skipWs t := by
  refine skipWs_all_ws _ (fun c hc => ?_) t
  rw [nlInd] at hc
  rcases List.mem_cons.mp hc with h | h
  · subst h; rfl
  · rw [List.eq_of_mem_replicate h]; rfl

/-- A digit character cannot open any other token class: it is not
whitespace, not a keyword or punctuation head, and not a closing bracket.
The first component is shaped for `scanVal_to_scanInt`. -/
theorem digitChar_not_special {c : Char} (h : isDigitChar c = true) :
    (isWsChar c = false ∧ c ≠ 'n' ∧ c ≠ 't' ∧ c ≠ 'f' ∧ c ≠ '"' ∧ c ≠ '[' ∧ c ≠ '{')
      ∧ c ≠ ']' ∧ c ≠ '}' := by
  have hne : ∀ d : Char, isDigitChar d = false → c ≠ d := by
    intro d hd he
    rw [he, hd] at h
    cases h
  have hws : isWsChar c = false := by
    cases hw : isWsChar c with
    | false => rfl
    | true =>
        exfalso
        simp only [isWsChar, Bool.or_eq_true, beq_iff_eq] at hw
        rcases hw with ((rfl | rfl) | rfl) | rfl <;> exact absurd h (by decide)
  exact ⟨⟨hws, hne _ (by decide), hne _ (by decide), hne _ (by decide), hne _ (by decide),
    hne _ (by decide), hne _ (by decide)⟩, hne _ (by decide), hne _ (by decide)⟩

/-- Every rendered value opens with a character that is neither whitespace nor
a closing bracket. -/
theorem dumpIndent_head (ind : Nat) (v : JVal) :
    ∃ c t, dumpIndent ind v = c :: t ∧ isWsChar c = false ∧ c ≠ ']' ∧ c ≠ '}' := by
  cases v with
  | int i =>
      by_cases hi : i < 0
      · refine ⟨'-', natDigs i.natAbs [], by simp [dumpIndent, intDigs, hi], ?_, ?_, ?_⟩
          <;> decide
      · obtain ⟨c, t, hct, hdig⟩ := natDigs_head i.natAbs
        obtain ⟨⟨hws, -⟩, hbr, hbc⟩ := digitChar_not_special hdig
        exact ⟨c, t, by simp [dumpIndent, intDigs, hi, hct], hws, hbr, hbc⟩
  | bool b =>
      cases b with
      | false => refine ⟨'f', _, rfl, ?_, ?_, ?_⟩ <;> decide
      | true => refine ⟨'t', _, rfl, ?_, ?_, ?_⟩ <;> decide
  | null => refine ⟨'n', _, rfl, ?_, ?_, ?_⟩ <;> decide
  | str s => refine ⟨'"', _, rfl, ?_, ?_, ?_⟩ <;> decide
  | arr es =>
      cases es with
      | nil => refine ⟨'[', _, rfl, ?_, ?_, ?_⟩ <;> decide
      | cons e es => refine ⟨'[', _, rfl, ?_, ?_, ?_⟩ <;> decide
  | obj fs =>
      cases fs with
      | nil => refine ⟨'{', _, rfl, ?_, ?_, ?_⟩ <;> decide
      | cons f fs => refine ⟨'{', _, rfl, ?_, ?_, ?_⟩ <;> decide

theorem skipWs_dumpIndent (ind : Nat) (v : JVal) (x : List Char) :
    skipWs (dumpIndent ind v ++ x) = dumpIndent ind v ++ x := by
  obtain ⟨c, t, hct, hws, -, -⟩ := dumpIndent_head ind v
  rw [hct, List.cons_append, skipWs_cons_not _ _ hws]

theorem dumpIndent_length_pos (ind : Nat) (v : JVal) : 1 ≤ (dumpIndent ind v).length := by
  obtain ⟨c, t, hct, -⟩ := dumpIndent_head ind v
  rw [hct]
  simp

theorem intStop_cons {c : Char} (t : List Char)
    (h : (isDigitChar c || c == '.' || c == 'e' || c == 'E') = false) :
    intStop (c :: t) = true := by
  simp [intStop, h]

/-- A value whose input opens like an integer literal dispatches to `scanInt`.
The bundled hypothesis says the head character opens no other token class. -/
theorem scanVal_to_scanInt (f : Nat) (c0 : Char) (t : List Char)
    (hstart : isWsChar c0 = false ∧ c0 ≠ 'n' ∧ c0 ≠ 't' ∧ c0 ≠ 'f' ∧ c0 ≠ '"'
      ∧ c0 ≠ '[' ∧ c0 ≠ '{')
    (hg : (c0 == '-' || isDigitChar c0) = true) :
    scanVal (f + 1) (c0 :: t)
      = (match scanInt (c0 :: t) with
         | some (i, r1) => some (.int i, r1)
         | none => none) := by
  obtain ⟨hws, hn, ht, hf, hq, hbk, hbc⟩ := hstart
  simp only [scanVal]
  rw [skipWs_cons_not c0 t hws]
  simp [hn, ht, hf, hq, hbk, hbc, hg]

/-- An integer literal in value position parses to its `.int`. -/
theorem scanVal_intDigs (i : Int) (f : Nat) (rest : List Char) (hr : intStop rest = true) :
    scanVal (f + 1) (intDigs i ++ rest) = some (.int i, rest) := by
  by_cases hi : i < 0
  · have harg : intDigs i ++ rest = '-' :: (natDigs i.natAbs [] ++ rest) := by
      simp [intDigs, hi]
    rw [harg, scanVal_to_scanInt f '-' _ (by decide) (by decide), ← harg,
      scanInt_intDigs i rest hr]
  · obtain ⟨c, t, hct, hdig⟩ := natDigs_head i.natAbs
    have harg : intDigs i ++ rest = c :: (t ++ rest) := by
      simp [intDigs, hi, hct]
    rw [harg, scanVal_to_scanInt f c _ (digitChar_not_special hdig).1 (by simp [hdig]),
      ← harg, scanInt_intDigs i rest hr]

/-! ### One-step unfoldings of the parser (all definitional) -/

theorem scanItems_step (f : Nat) (cs : List Char) :
    scanItems (f + 1) cs
      = (match scanVal f cs with
         | none => none
         | some (v, r) =>
             match skipWs r with
             | ',' :: r1 =>
                 match scanItems f (skipWs r1) with
                 | some (vs, r2) => some (v :: vs, r2)
                 | none => none
             | ']' :: r1 => some ([v], r1)
             | _ => none) := rfl

theorem scanFields_step (f : Nat) (cs : List Char) :
    scanFields (f + 1) cs
      = (match skipWs cs with
         | '"' :: r =>
             match scanStr (r.length + 1) [] r with
             | none => none
             | some (k, r1) =>
                 match skipWs r1 with
                 | ':' :: r2 =>
                     match scanVal f (skipWs r2) with
                     | none => none
                     | some (v, r3) =>
                         match skipWs r3 with
                         | ',' :: r4 =>
                             match scanFields f (skipWs r4) with
                             | some (fs, r5) => some ((String.mk k, v) :: fs, r5)
                             | none => none
                         | '}' :: r4 => some ([(String.mk k, v)], r4)
                         | _ => none
                 | _ => none
         | _ => none) := rfl

theorem scanVal_open_arr (f : Nat) (R : List Char) :
    scanVal (f + 1) ('[' :: R)
      = (if (skipWs R).head? = some ']' then some (.arr [], (skipWs R).tail)
         else
           match scanItems f (skipWs R) with
           | some (vs, r2) => some (.arr vs, r2)
           | none => none) := rfl

theorem scanVal_open_obj (f : Nat) (R : List Char) :
    scanVal (f + 1) ('{' :: R)
      = (if (skipWs R).head? = some '}' then some (.obj [], (skipWs R).tail)
         else
           match scanFields f (skipWs R) with
           | some (fs, r2) => some (.obj fs, r2)
           | none => none) := rfl

/-- A rendered string literal in value position parses to its `.str`. -/
theorem scanVal_quoteStr (s : String) (f : Nat) (rest : List Char) :
    scanVal (f + 1) (quoteStr s ++ rest) = some (.str s, rest) := by
  have harg : quoteStr s ++ rest = '"' :: (escStr s.data ++ ('"' :: rest)) := by
    simp [quoteStr]
  have hstep : scanVal (f + 1) ('"' :: (escStr s.data ++ ('"' :: rest)))
      = (match scanStr ((escStr s.data ++ ('"' :: rest)).length + 1) []
              (escStr s.data ++ ('"' :: rest)) with
         | some (b, r1) => some (.str (String.mk b), r1)
         | none => none) := rfl
  have hlen : s.data.length < (escStr s.data ++ ('"' :: rest)).length + 1 := by
    have := length_le_escStr s.data
    simp only [List.length_append, List.length_cons]
    omega
  rw [harg, hstep, scanStr_escStr s.data _ [] rest hlen]
  simp

/-! ### The codec round-trip -/

mutual
theorem rtVal : ∀ (v : JVal) (ind fuel : Nat) (rest : List Char),
    (dumpIndent ind v).length < fuel → intStop rest = true →
    scanVal fuel (dumpIndent ind v ++ rest) = some (v, rest)
  | .null, ind, fuel, rest, hf, _ => by
      match fuel, hf with
      | fuel + 1, _ => simp [dumpIndent, scanVal, skipWs, isWsChar]
  | .bool b, ind, fuel, rest, hf, _ => by
      match fuel, hf with
      | fuel + 1, _ => cases b <;> simp [dumpIndent, scanVal, skipWs, isWsChar]
  | .int i, ind, fuel, rest, hf, hr => by
      match fuel, hf with
      | fuel + 1, _ => exact scanVal_intDigs i fuel rest hr
  | .str s, ind, fuel, rest, hf, _ => by
      match fuel, hf with
      | fuel + 1, _ => exact scanVal_quoteStr s fuel rest
  | .arr [], ind, fuel, rest, hf, _ => by
      match fuel, hf with
      | fuel + 1, _ =>
        simp [dumpIndent, scanVal_open_arr, skipWs, isWsChar]
  | .arr (e :: es), ind, fuel, rest, hf, _ => by
      match fuel, hf with
      | fuel + 1, hf =>
        have harg : dumpIndent ind (.arr (e :: es)) ++ rest
            = '[' :: (nlInd (ind + 2) ++ (dumpIndent (ind + 2) e
              ++ (dumpItemsInd (ind + 2) es ++ (nlInd ind ++ (']' :: rest))))) := by
          simp [dumpIndent]
        obtain ⟨c, t, hct, -, hbr, -⟩ := dumpIndent_head (ind + 2) e
        have hhead : (dumpIndent (ind + 2) e
            ++ (dumpItemsInd (ind + 2) es ++ (nlInd ind ++ (']' :: rest)))).head?
            = some c := by
          rw [hct]
          simp
        have hlen : (dumpIndent (ind + 2) e).length + (dumpItemsInd (ind + 2) es).length
            + (nlInd ind).length < fuel := by
          simp only [dumpIndent, List.length_cons, List.length_append, nlInd_length] at hf ⊢
          omega
        rw [harg, scanVal_open_arr, skipWs_nlInd, skipWs_dumpIndent, hhead,
          if_neg (by simp [hbr])]
        simp only [rtItems e es (ind + 2) ind fuel rest hlen]
  | .obj [], ind, fuel, rest, hf, _ => by
      match fuel, hf with
      | fuel + 1, _ =>
        simp [dumpIndent, scanVal_open_obj, skipWs, isWsChar]
  | .obj ((key, v) :: fs), ind, fuel, rest, hf, _ => by
      match fuel, hf with
      | fuel + 1, hf =>
        have harg : dumpIndent ind (.obj ((key, v) :: fs)) ++ rest
            = '{' :: (nlInd (ind + 2) ++ (dumpFieldInd (ind + 2) (key, v)
              ++ (dumpFieldsInd (ind + 2) fs ++ (nlInd ind ++ ('}' :: rest))))) := by
          simp [dumpIndent]
        have hqhead : (dumpFieldInd (ind + 2) (key, v)
            ++ (dumpFieldsInd (ind + 2) fs ++ (nlInd ind ++ ('}' :: rest)))).head?
            = some '"' := by
          simp [dumpFieldInd, quoteStr]
        have hskip : skipWs (dumpFieldInd (ind + 2) (key, v)
            ++ (dumpFieldsInd (ind + 2) fs ++ (nlInd ind ++ ('}' :: rest))))
            = dumpFieldInd (ind + 2) (key, v)
              ++ (dumpFieldsInd (ind + 2) fs ++ (nlInd ind ++ ('}' :: rest))) := by
          rw [show dumpFieldInd (ind + 2) (key, v)
              ++ (dumpFieldsInd (ind + 2) fs ++ (nlInd ind ++ ('}' :: rest)))
              = '"' :: (escStr key.data ++ ['"']
                ++ (':' :: ' ' :: dumpIndent (ind + 2) v
                  ++ (dumpFieldsInd (ind + 2) fs ++ (nlInd ind ++ ('}' :: rest)))))
            from by simp [dumpFieldInd, quoteStr]]
          exact skipWs_cons_not _ _ (by decide)
        have hlen : (dumpFieldInd (ind + 2) (key, v)).length
            + (dumpFieldsInd (ind + 2) fs).length + (nlInd ind).length < fuel := by
          simp only [dumpIndent, List.length_cons, List.length_append, nlInd_length] at hf ⊢
          omega
        rw [harg, scanVal_open_obj, skipWs_nlInd, hskip, hqhead,
          if_neg (by simp)]
        simp only [rtFields key v fs (ind + 2) ind fuel rest hlen]
termination_by v _ _ _ _ _ => sizeOf v

theorem rtItems : ∀ (v : JVal) (vs : List JVal) (ind k fuel : Nat) (rest : List Char),
    (dumpIndent ind v).length + (dumpItemsInd ind vs).length + (nlInd k).length < fuel →
    scanItems fuel (dumpIndent ind v ++ (dumpItemsInd ind vs ++ (nlInd k ++ (']' :: rest))))
      = some (v :: vs, rest)
  | v, [], ind, k, fuel, rest, hf => by
      match fuel, hf with
      | fuel + 1, hf =>
        have hv := rtVal v ind fuel (nlInd k ++ (']' :: rest))
          (by simp only [dumpItemsInd, List.length_nil, nlInd_length] at hf ⊢; omega)
          (by rw [nlInd_cons]; exact intStop_cons _ (by decide))
        have hcl : skipWs (']' :: rest) = ']' :: rest := skipWs_cons_not _ _ (by decide)
        rw [scanItems_step]
        simp only [dumpItemsInd, List.nil_append, hv, skipWs_nlInd, hcl]
  | v, x :: xs, ind, k, fuel, rest, hf => by
      match fuel, hf with
      | fuel + 1, hf =>
        have hlens : (dumpIndent ind v).length + (dumpItemsInd ind (x :: xs)).length
            + (nlInd k).length < fuel + 1 := hf
        have hexp : (dumpItemsInd ind (x :: xs)).length
            = 1 + (nlInd ind).length + (dumpIndent ind x).length
              + (dumpItemsInd ind xs).length := by
          simp only [dumpItemsInd, List.length_cons, List.length_append]
          omega
        have hv := rtVal v ind fuel
          (dumpItemsInd ind (x :: xs) ++ (nlInd k ++ (']' :: rest)))
          (by rw [hexp] at hlens; simp only [nlInd_length] at hlens ⊢; omega)
          (by rw [dumpItemsInd]; exact intStop_cons _ (by decide))
        have hrec := rtItems x xs ind k fuel rest
          (by rw [hexp] at hlens; simp only [nlInd_length] at hlens ⊢; omega)
        have hshape : dumpItemsInd ind (x :: xs) ++ (nlInd k ++ (']' :: rest))
            = ',' :: (nlInd ind ++ (dumpIndent ind x
              ++ (dumpItemsInd ind xs ++ (nlInd k ++ (']' :: rest))))) := by
          simp [dumpItemsInd]
        have hcm : skipWs (',' :: (nlInd ind ++ (dumpIndent ind x
            ++ (dumpItemsInd ind xs ++ (nlInd k ++ (']' :: rest))))))
            = ',' :: (nlInd ind ++ (dumpIndent ind x
              ++ (dumpItemsInd ind xs ++ (nlInd k ++ (']' :: rest))))) :=
          skipWs_cons_not _ _ (by decide)
        rw [scanItems_step, hv]
        simp only [hshape, hcm, skipWs_nlInd, skipWs_dumpIndent, hrec]
termination_by v vs _ _ _ _ _ => sizeOf v + sizeOf vs

theorem rtFields : ∀ (key : String) (v : JVal) (fs : List (String × JVal))
    (ind k fuel : Nat) (rest : List Char),
    (dumpFieldInd ind (key, v)).length + (dumpFieldsInd ind fs).length
      + (nlInd k).length < fuel →
    scanFields fuel (dumpFieldInd ind (key, v)
        ++ (dumpFieldsInd ind fs ++ (nlInd k ++ ('}' :: rest))))
      = some ((key, v) :: fs, rest)
  | key, v, [], ind, k, fuel, rest, hf => by
      match fuel, hf with
      | fuel + 1, hf =>
        have hkey : key.data.length
            < ((escStr key.data ++ ('"' :: (':' :: ' ' :: (dumpIndent ind v
                ++ (nlInd k ++ ('}' :: rest))))))).length + 1 := by
          have := length_le_escStr key.data
          simp only [List.length_append, List.length_cons]
          omega
        have hv := rtVal v ind fuel (nlInd k ++ ('}' :: rest))
          (by simp only [dumpFieldInd, dumpFieldsInd, quoteStr, List.length_cons,
                List.length_append, List.length_nil, nlInd_length] at hf ⊢
              omega)
          (by rw [nlInd_cons]; exact intStop_cons _ (by decide))
        have hshape : dumpFieldInd ind (key, v)
            ++ (dumpFieldsInd ind [] ++ (nlInd k ++ ('}' :: rest)))
            = '"' :: (escStr key.data ++ ('"' :: (':' :: ' ' :: (dumpIndent ind v
              ++ (nlInd k ++ ('}' :: rest)))))) := by
          simp [dumpFieldInd, dumpFieldsInd, quoteStr]
        have hcol : skipWs (':' :: (' ' :: (dumpIndent ind v ++ (nlInd k ++ ('}' :: rest)))))
            = ':' :: (' ' :: (dumpIndent ind v ++ (nlInd k ++ ('}' :: rest)))) :=
          skipWs_cons_not _ _ (by decide)
        have hsp : skipWs (' ' :: (dumpIndent ind v ++ (nlInd k ++ ('}' :: rest))))
            = dumpIndent ind v ++ (nlInd k ++ ('}' :: rest)) := by
          rw [skipWs, if_pos (by decide)]
          exact skipWs_dumpIndent ind v _
        have hcr : skipWs ('}' :: rest) = '}' :: rest := skipWs_cons_not _ _ (by decide)
        have hscan := scanStr_escStr key.data
          ((escStr key.data ++ ('"' :: (':' :: ' ' :: (dumpIndent ind v
            ++ (nlInd k ++ ('}' :: rest)))))).length + 1) []
          (':' :: ' ' :: (dumpIndent ind v ++ (nlInd k ++ ('}' :: rest)))) hkey
        rw [scanFields_step, hshape, skipWs_cons_not _ _ (by decide)]
        simp only [hscan, List.nil_append, hcol, hsp, hv, skipWs_nlInd, hcr]
        simp
  | key, v, (k2, v2) :: fs2, ind, k, fuel, rest, hf => by
      match fuel, hf with
      | fuel + 1, hf =>
        have hkey : key.data.length
            < ((escStr key.data ++ ('"' :: (':' :: ' ' :: (dumpIndent ind v
                ++ (dumpFieldsInd ind ((k2, v2) :: fs2)
                  ++ (nlInd k ++ ('}' :: rest)))))))).length + 1 := by
          have := length_le_escStr key.data
          simp only [List.length_append, List.length_cons]
          omega
        have hexp : (dumpFieldsInd ind ((k2, v2) :: fs2)).length
            = 1 + (nlInd ind).length + (dumpFieldInd ind (k2, v2)).length
              + (dumpFieldsInd ind fs2).length := by
          simp only [dumpFieldsInd, List.length_cons, List.length_append]
          omega
        have hv := rtVal v ind fuel
          (dumpFieldsInd ind ((k2, v2) :: fs2) ++ (nlInd k ++ ('}' :: rest)))
          (by rw [hexp] at hf
              simp only [dumpFieldInd, quoteStr, List.length_cons, List.length_append,
                nlInd_length] at hf ⊢
              omega)
          (by rw [dumpFieldsInd]; exact intStop_cons _ (by decide))
        have hrec := rtFields k2 v2 fs2 ind k fuel rest
          (by rw [hexp] at hf; simp only [nlInd_length] at hf ⊢; omega)
        have hshape : dumpFieldInd ind (key, v)
            ++ (dumpFieldsInd ind ((k2, v2) :: fs2) ++ (nlInd k ++ ('}' :: rest)))
            = '"' :: (escStr key.data ++ ('"' :: (':' :: ' ' :: (dumpIndent ind v
              ++ (dumpFieldsInd ind ((k2, v2) :: fs2)
                ++ (nlInd k ++ ('}' :: rest))))))) := by
          simp [dumpFieldInd, quoteStr]
        have hcol : skipWs (':' :: (' ' :: (dumpIndent ind v
            ++ (dumpFieldsInd ind ((k2, v2) :: fs2) ++ (nlInd k ++ ('}' :: rest))))))
            = ':' :: (' ' :: (dumpIndent ind v
              ++ (dumpFieldsInd ind ((k2, v2) :: fs2) ++ (nlInd k ++ ('}' :: rest))))) :=
          skipWs_cons_not _ _ (by decide)
        have hsp : skipWs (' ' :: (dumpIndent ind v
            ++ (dumpFieldsInd ind ((k2, v2) :: fs2) ++ (nlInd k ++ ('}' :: rest)))))
            = dumpIndent ind v
              ++ (dumpFieldsInd ind ((k2, v2) :: fs2) ++ (nlInd k ++ ('}' :: rest))) := by
          rw [skipWs, if_pos (by decide)]
          exact skipWs_dumpIndent ind v _
        have hshape2 : dumpFieldsInd ind ((k2, v2) :: fs2) ++ (nlInd k ++ ('}' :: rest))
            = ',' :: (nlInd ind ++ (dumpFieldInd ind (k2, v2)
              ++ (dumpFieldsInd ind fs2 ++ (nlInd k ++ ('}' :: rest))))) := by
          simp [dumpFieldsInd]
        have hcm : skipWs (',' :: (nlInd ind ++ (dumpFieldInd ind (k2, v2)
            ++ (dumpFieldsInd ind fs2 ++ (nlInd k ++ ('}' :: rest))))))
            = ',' :: (nlInd ind ++ (dumpFieldInd ind (k2, v2)
              ++ (dumpFieldsInd ind fs2 ++ (nlInd k ++ ('}' :: rest))))) :=
          skipWs_cons_not _ _ (by decide)
        have hskip2 : skipWs (dumpFieldInd ind (k2, v2)
            ++ (dumpFieldsInd ind fs2 ++ (nlInd k ++ ('}' :: rest))))
            = dumpFieldInd ind (k2, v2)
              ++ (dumpFieldsInd ind fs2 ++ (nlInd k ++ ('}' :: rest))) := by
          rw [show dumpFieldInd ind (k2, v2)
                ++ (dumpFieldsInd ind fs2 ++ (nlInd k ++ ('}' :: rest)))
              = '"' :: (escStr k2.data ++ ['"'] ++ (':' :: ' ' :: dumpIndent ind v2
                ++ (dumpFieldsInd ind fs2 ++ (nlInd k ++ ('}' :: rest))))) from by
            simp [dumpFieldInd, quoteStr]]
          exact skipWs_cons_not _ _ (by decide)
        have hscan := scanStr_escStr key.data
          ((escStr key.data ++ ('"' :: (':' :: ' ' :: (dumpIndent ind v
            ++ (dumpFieldsInd ind ((k2, v2) :: fs2)
              ++ (nlInd k ++ ('}' :: rest))))))).length + 1) []
          (':' :: ' ' :: (dumpIndent ind v ++ (dumpFieldsInd ind ((k2, v2) :: fs2)
            ++ (nlInd k ++ ('}' :: rest))))) hkey
        rw [scanFields_step, hshape, skipWs_cons_not _ _ (by decide)]
        simp only [hscan, List.nil_append, hcol, hsp, hv]
        simp only [hshape2, hcm, skipWs_nlInd, hskip2, hrec]
        simp
termination_by key v fs _ _ _ _ _ => sizeOf key + sizeOf v + sizeOf fs
end

/-- Parsing a rendered document recovers it exactly. -/
theorem jsonLoads_dumpIndent (v : JVal) :
    jsonLoads (String.mk (dumpIndent 0 v)) = some v := by
  have h := rtVal v 0 ((dumpIndent 0 v).length + 1) [] (by omega) rfl
  simp only [List.append_nil] at h
  rw [jsonLoads]
  show (match scanVal ((dumpIndent 0 v).length + 1) (dumpIndent 0 v) with
    | none => none
    | some (w, r) =>
        match skipWs r with
        | [] => some w
        | _ => none) = some v
  rw [h]
  rfl


/-! ### The claims -/

/-- C1, counterexample: a rule whose match list is empty evaluates TRUE on an
arbitrary window (here even under a regex oracle that never matches), because
`len(self.match) > 0 and not any(...)` skips the rejection entirely for an
empty match list.  The claim says such a rule always evaluates false. -/
theorem c1_empty_match_rule_accepts :
    r0.«match» = [] ∧ Rule.matches rsNever r0 w0 = true :=
  ⟨rfl, rfl⟩

/-- C1, amended: a rule with an empty match list matches exactly the windows
that no exclude predicate matches (an empty match list acts as a wildcard,
vetoed only by `exclude`), rather than never matching. -/
theorem c1_empty_match_iff_no_exclude (rs : String → String → Bool) (r : Rule)
    (w : Window) (h : r.«match» = []) :
    r.matches rs w = !(r.exclude.any (fun m => m.matches rs w)) := by
  cases ha : r.exclude.any (fun m => m.matches rs w) <;>
    simp [Rule.matches, h, ha]

/-- C1, witness for the amended claim at a concrete rule and window. -/
theorem c1_amended_witness :
    r1.«match» = [] ∧ Rule.matches rsEq r1
      { id := 1, title := "hello", app_id := "" } = true :=
  ⟨rfl, by rw [c1_empty_match_iff_no_exclude rsEq r1
    { id := 1, title := "hello", app_id := "" } rfl]; rfl⟩

/-- C2, counterexample: a `WindowClosed` event whose id is not in the registry
does not complete as a no-op; `del windows[changed["id"]]` raises `KeyError`
and the step fails. -/
theorem c2_missing_id_close_raises :
    stepEvent rsNever [] [] (closedEvent 1) = .error .keyError :=
  rfl

/-- C2, amended: processing a WindowClosed event removes the single entry
with that id when one exists; when none exists, the deletion raises
`KeyError` (aborting the event loop) instead of being a no-op. -/
theorem c2_window_closed_del_semantics (rs : String → String → Bool)
    (rules : List Rule) (reg : Registry) (id : Int) :
    (pyDictHas reg id = true →
      stepEvent rs rules reg (closedEvent id) = .ok (pyDictDel reg id, []))
    ∧ (pyDictHas reg id = false →
      stepEvent rs rules reg (closedEvent id) = .error .keyError) := by
  have hstep : stepEvent rs rules reg (closedEvent id)
      = if pyDictHas reg id then .ok (pyDictDel reg id, []) else .error .keyError := rfl
  constructor <;> intro h <;> simp [hstep, h]

/-- C2, witness: both branches of the amended claim at concrete registries. -/
theorem c2_del_semantics_witness :
    stepEvent rsNever [] [(1, w0)] (closedEvent 1) = .ok ([], [])
      ∧ stepEvent rsNever [] [] (closedEvent 2) = .error .keyError :=
  ⟨(c2_window_closed_del_semantics rsNever [] [(1, w0)] 1).1 rfl,
   (c2_window_closed_del_semantics rsNever [] [] 2).2 rfl⟩

/-- C3, counterexample: a malformed line does not get skipped; the decode
error aborts the loop and the following well-formed line is never
processed. -/
theorem c3_bad_json_kills_loop :
    runLoop rsNever [] [] ["\x7boops", "\x7b\x7d"] = .error .jsonDecodeError :=
  rfl

/-- C3, amended: a line that is not valid JSON raises `json.JSONDecodeError`
out of the (try-less) event loop, terminating it; subsequent lines are not
processed.  The loop does not log-and-continue. -/
theorem c3_bad_json_propagates (rs : String → String → Bool) (rules : List Rule)
    (reg : Registry) (line : String) (rest : List String)
    (h : jsonLoads line = none) :
    runLoop rs rules reg (line :: rest) = .error .jsonDecodeError := by
  simp [runLoop, h]

/-- C3, witness: the amended claim at a concrete malformed line with a valid
line queued behind it. -/
theorem c3_bad_json_witness :
    runLoop rsNever [] [] ["not json!", "\x7b\x7d"] = .error .jsonDecodeError :=
  c3_bad_json_propagates rsNever [] [] "not json!" ["\x7b\x7d"] rfl

/-- C4, counterexample: `get_workspace_info` does not degrade gracefully when
`send_request("Workspaces")` returns its `None` sentinel: iterating `None`
raises `TypeError`. -/
theorem c4_workspace_info_raises_on_failed_request :
    get_workspace_info none "DP-2" = .error .typeError :=
  rfl

/-- C4, amended: the `None` sentinel is handled soft only where a guard
exists.  `find_target_window` (with its `or []`) treats a failed "Windows"
request as not-found, but `get_workspace_info` raises `TypeError` on a
failed "Workspaces" request, and launch_music's `main` raises `TypeError`
iterating a failed `get_niri_state` workspaces result. -/
theorem c4_transport_failure_behavior (monitor wsName pattern : String)
    (rs : String → String → Bool) :
    get_workspace_info none monitor = .error .typeError
    ∧ resolve_workspace none wsName = .error .typeError
    ∧ find_target_window rs pattern none = none :=
  ⟨rfl, rfl, rfl⟩

/-- C5: once a window's recorded matched flag is true, `update_matched`
issues no actions on any later event for that window: the directives fire
only on a false-to-true transition. -/
theorem c5_already_matched_no_actions (rs : String → String → Bool)
    (rules : List Rule) (reg : Registry) (w e : Window)
    (h : pyDictGet reg w.id = some e) (hm : e.matched = true) :
    (update_matched rs rules reg w).2 = [] := by
  simp only [update_matched, h]
  split
  · rw [hm]
    simp
  · rfl

/-- C5, witness: a concrete already-matched window re-observed under a rule
that still matches produces zero actions. -/
theorem c5_no_refire_witness :
    (update_matched rsEq rules1 [(1, wMatched)] wIncoming).2 = [] :=
  c5_already_matched_no_actions rsEq rules1 [(1, wMatched)] wIncoming wMatched rfl rfl

/-- C6: when no window in the "Windows" response has a title matched by the
configured regex, both `move_to_primary` and `move_to_glance` return `False`
having sent no action and with the persisted state file untouched. -/
theorem c6_not_found_aborts_cleanly (rs : String → String → Bool)
    (cfg : GlancerCfg) (env : GlancerEnv)
    (h : ∀ w ∈ env.windowsResp.getD [], rs cfg.window_title_regex w.title = false) :
    move_to_primary rs cfg env = .ok (false, [], env.stateFile)
    ∧ move_to_glance rs cfg env = .ok (false, [], env.stateFile) := by
  have hfind : find_target_window rs cfg.window_title_regex env.windowsResp = none := by
    rw [find_target_window]
    rw [List.find?_eq_none.mpr (fun w hw => by simp [h w hw])]
  constructor <;> simp [move_to_primary, move_to_glance, hfind]

/-- C6, witness: a concrete environment whose one window does not match. -/
theorem c6_not_found_witness :
    move_to_primary rsEq cfg0 env0 = .ok (false, [], some "prev")
    ∧ move_to_glance rsEq cfg0 env0 = .ok (false, [], some "prev") :=
  c6_not_found_aborts_cleanly rsEq cfg0 env0 (by decide)

/-- C7: `save_state` followed by `load_state` recovers any
JSON-representable state record exactly, all-null optional fields
included. -/
theorem c7_state_roundtrip (state : JVal) :
    load_state (save_state state) = state := by
  simp [save_state, load_state, jsonLoads_dumpIndent]

/-- C8: if the polling loop observes an elapsed time beyond the configured
timeout while apps are still missing, the workflow exits with code 1 and
sends none of the stacking-burst actions. -/
theorem c8_timeout_no_burst (timeout : ℚ) (app_id_strings apps_to_launch : List String)
    (profile_suffix : String) (wsId : Int)
    (polls : List (ℚ × Option (List MWin))) (wmap0 : List (String × Int))
    (finalFetch : Option (List MWin))
    (h : waitLoop timeout app_id_strings.length apps_to_launch profile_suffix wsId
      polls wmap0 = .timedOut) :
    mainFromWait timeout app_id_strings apps_to_launch profile_suffix wsId polls
      wmap0 finalFetch = .exit 1 [] := by
  simp [mainFromWait, h]

/-- C8, witness: two configured apps, one still missing, first poll already
past the timeout. -/
theorem c8_timeout_witness :
    mainFromWait 5 ["a", "b"] ["b"] "P" 2 [(6, some [])] [("a", 10)] none
      = .exit 1 [] :=
  c8_timeout_no_burst 5 ["a", "b"] ["b"] "P" 2 [(6, some [])] [("a", 10)] none rfl

/-- C9: for a non-empty action mapping, `send_action` writes exactly the
bytes of `json.dumps` applied to the Action-wrapped mapping, with `': True'` rewritten to
`': true'` and `': False'` to `': false'` (a plain substring replace, so
string values containing those substrings are rewritten too), followed by a
newline. -/
theorem c9_action_wire_format (a : List (String × JVal)) (h : a ≠ []) :
    send_action a
      = .ok (pyReplace (pyReplace (dumpsSep (.obj [("Action", .obj a)]))
          ": True".data ": true".data) ": False".data ": false".data ++ ['\n']) := by
  rw [send_action, if_neg (by simp [h])]

/-- C9, witness: a concrete action holding a real boolean and a string value
containing `': True'`; the boolean serializes lowercase and the string value
is rewritten as well. -/
theorem c9_wire_witness :
    send_action [("mode", .bool true), ("note", .str ": True here")]
      = .ok ("\x7b\"Action\": \x7b\"mode\": true, \"note\": \": true here\"\x7d\x7d\n".data) := by
  rw [c9_action_wire_format [("mode", .bool true), ("note", .str ": True here")]
    (List.cons_ne_nil _ _)]
  rfl

/-- C10: the centering step is exactly two `MoveFloatingWindow` actions in
order: first to proportion 50.0/50.0, then a fixed adjustment of
`-(width / 2)` horizontally and `height / 4` vertically, with `width` and
`height` the rule's configured values as passed in. -/
theorem c10_center_two_moves (window_id width height : Int) :
    set_centered window_id width height
      = [.moveFloatingWindow window_id (.setProportion 50) (.setProportion 50),
         .moveFloatingWindow window_id (.adjustFixed (-((width : ℚ) / 2)))
           (.adjustFixed ((height : ℚ) / 4))] :=
  rfl
